import Mathlib

/-!
Verification development for the DaaS cross-layer correlation engine
(`cross_layer_correlation`): a shallow embedding of the two platform
correlators (`aws_correlator.py`, `azure_correlator.py`) and the shared
`Deduplicator` utility, together with theorems settling the specification
claims about session construction, activity detection and deduplication.

Modelling conventions:
* pandas `DataFrame`s become Lean lists of structure values (one structure
  per table schema); a table that may not have been loaded yet becomes an
  `Option (List _)` argument.
* `pd.Timestamp` values become rationals (seconds since the epoch);
  `pd.Timedelta(hours=1)` is `3600`, `pd.Timedelta(minutes=30)` is `1800`.
* Python `raise ValueError(...)` becomes `Except.error` with the same
  message; functions that cannot raise return plain lists.
* `Series.drop_duplicates()` / `Series.unique()` keep the first occurrence
  in input order (`firstDedup`); Python `sorted` is modelled with
  insertion sort (both are ascending and the inputs are duplicate-free).
* pandas `groupby(key)` iterates groups in ascending sorted key order
  (its default `sort=True`), hence groups are enumerated by
  `sortedUnique` of the key column.
* Python string containment `a in b` is `strContainsPlain`;
  `Series.str.contains(pat, case=False)` performs a case-insensitive
  regex search, modelled by `strContainsPat` in which `.` matches any
  character (the only regex metacharacter occurring in the literals the
  code passes); lower-casing is modelled for ASCII.
-/

/-- ASCII lower-casing of one character (models Python `str.lower` on the
ASCII identifiers and domain names handled by the tool). -/
def lowerChar (c : Char) : Char :=
  if 'A' ≤ c ∧ c ≤ 'Z' then Char.ofNat (c.toNat + 32) else c

/-- Does `needle` occur at the head of `hay`? (exact characters). -/
def charsLeads : List Char → List Char → Bool
  | [], _ => true
  | _ :: _, [] => false
  | a :: as, b :: bs => a == b && charsLeads as bs

/-- Does `needle` occur anywhere in `hay`? Models Python `needle in hay`. -/
def charsContains (hay needle : List Char) : Bool :=
  charsLeads needle hay ||
    match hay with
    | [] => false
    | _ :: t => charsContains t needle

/-- Python substring test `needle in hay` (case-sensitive). -/
def strContainsPlain (hay needle : String) : Bool :=
  charsContains hay.toList needle.toList

/-- Case-insensitive substring test (ASCII), as used for the status-field
and c2-pattern checks. -/
def strContainsCI (hay needle : String) : Bool :=
  charsContains (hay.toList.map lowerChar) (needle.toList.map lowerChar)

/-- Does the regex-style pattern occur at the head of `hay`?  `.` in the
pattern matches any character; comparison is case-insensitive, matching
`Series.str.contains(pat, case=False)`. -/
def patLeads : List Char → List Char → Bool
  | [], _ => true
  | _ :: _, [] => false
  | p :: ps, h :: hs => (p == '.' || lowerChar p == lowerChar h) && patLeads ps hs

/-- Regex-style search of `pat` inside `hay` (see `patLeads`). -/
def patSearch (hay pat : List Char) : Bool :=
  patLeads pat hay ||
    match hay with
    | [] => false
    | _ :: t => patSearch t pat

/-- `Series.str.contains(pat, case=False)`: case-insensitive regex search
where `.` matches any character. -/
def strContainsPat (hay pat : String) : Bool :=
  patSearch hay.toList pat.toList

/-- Keyed first-occurrence deduplication, accumulating the keys already
seen.  This is the semantics of `DataFrame.drop_duplicates(keep='first')`
and of `Series.unique()` / `Series.drop_duplicates()`. -/
def dropDupByAux {α κ : Type} [DecidableEq κ] (k : α → κ) (seen : List κ) :
    List α → List α
  | [] => []
  | r :: rs =>
    if k r ∈ seen then dropDupByAux k seen rs
    else r :: dropDupByAux k (k r :: seen) rs

/-- Keep the first row of each key group, in input order. -/
def dropDupBy {α κ : Type} [DecidableEq κ] (k : α → κ) (l : List α) : List α :=
  dropDupByAux k [] l

/-- `Series.unique()` / `list(Series.drop_duplicates())`: distinct values
in first-appearance order. -/
def firstDedup {α : Type} [DecidableEq α] (l : List α) : List α :=
  dropDupBy id l

/-- Python `sorted(series.unique())`: the distinct values in ascending
order.  Used for the sorted user-label/workspace-id lists and for the
(sorted) iteration order of pandas `groupby`. -/
def sortedUnique {α : Type} [DecidableEq α] [LinearOrder α] (l : List α) :
    List α :=
  List.insertionSort (· ≤ ·) (firstDedup l)

/-- `DataFrame.sort_values(column)` with the sort key extracted by `f`. -/
def sortOn {α β : Type} [LinearOrder β] (f : α → β) (l : List α) : List α :=
  List.insertionSort (fun a b => f a ≤ f b) l

/-- Consecutive differences of a list, i.e. `Series.diff().dropna()` on a
sorted timestamp series. -/
def diffs : List ℚ → List ℚ
  | [] => []
  | [_] => []
  | a :: b :: rest => (b - a) :: diffs (b :: rest)

/-- Maximum of a timestamp series (`Series.max()`); `0` only for the empty
series, which no caller produces. -/
def maxQ : List ℚ → ℚ
  | [] => 0
  | a :: as => as.foldl max a

/-- Minimum of a timestamp series (`Series.min()`). -/
def minQ : List ℚ → ℚ
  | [] => 0
  | a :: as => as.foldl min a

/-- Mean of a series (`Series.mean()`); defined for nonempty input. -/
def meanQ (l : List ℚ) : ℚ := l.sum / l.length

/-- Sample variance with `ddof = 1`, the square of `Series.std()`.  Only
meaningful for two or more observations. -/
def sampleVariance (l : List ℚ) : ℚ :=
  (l.map (fun x => (x - meanQ l) ^ 2)).sum / ((l.length : ℚ) - 1)

/-- The test `Series.std() < bound` for a nonnegative `bound`.  pandas
`std` uses `ddof = 1`: on a single observation it returns `NaN`, and
`NaN < bound` is `False`; on `n ≥ 2` observations `std < bound` holds
exactly when the sample variance is below `bound ^ 2`. -/
def stdLt (l : List ℚ) (bound : ℚ) : Bool :=
  decide (2 ≤ l.length) && decide (sampleVariance l < bound ^ 2)

/-! ## Data model -/

/-- A generic table row for the `Deduplicator` utility: named columns with
string-rendered values (only equality of rows/columns matters there). -/
abbrev Row := List (String × String)

/-- An Event Bridge login event after `load_eventbridge_logs` (JSON payload
flattened, `time` normalized to a UTC instant).  Display-only payload
fields (`clientPlatform` aside) are carried as strings. -/
structure EBRow where
  workspaceId : String
  time : ℚ
  clientIpAddress : String
  actionType : String
  loginTime : Option ℚ
  clientPlatform : String
deriving DecidableEq

/-- A Route 53 query-log row after `load_query_logs` (payload parsed,
tagged with the per-file user label; `instance_id` extracted from
`srcids.instance` when present). -/
structure QueryRow where
  user_label : String
  query_name : String
  query_timestamp : ℚ
  instance_id : Option String
deriving DecidableEq

/-- A VPC flow-log row after `load_vpc_logs` (columns renamed to the
canonical flow schema, timestamp normalized). -/
structure FlowRow where
  user_label : String
  srcaddr : String
  dstport : ℕ
  bytes : ℤ
  timestamp : ℚ
deriving DecidableEq

/-- One entry of the optional static `workspace_user_mapping.json` file. -/
structure WsInfo where
  username : String
  displayName : String
deriving DecidableEq

/-- One AWS session row of the user-VM mapping (the `Action`, `Platform`
and `Product` display columns are omitted; no claim mentions them). -/
structure AwsSession where
  user : String
  username : String
  displayName : String
  workspaceId : String
  clientIp : String
  loginTime : ℚ
  sessionStart : ℚ
  sessionEnd : ℚ
deriving DecidableEq

/-- A detected Activity row.  The union of the column sets the individual
detectors emit; columns a detector does not produce are `none`/`[]`.  The
human-readable `Details` string is omitted, and the reported interval
statistics `round(mean, 2)` / `round(std, 2)` are modelled by the exact
mean and the exact sample variance (`std` is its square root). -/
structure Activity where
  activityType : String
  user : String
  domain : Option String
  queryCount : Option ℕ
  startTime : Option ℚ
  endTime : Option ℚ
  totalBytes : Option ℤ
  port : Option ℕ
  attempts : Option ℕ
  srcIps : List String
  intervalMean : Option ℚ
  intervalVar : Option ℚ
  vmCount : Option ℕ
  switchCount : Option ℕ
  ipCount : Option ℕ
  vmList : List String
  ipList : List String
deriving DecidableEq

/-- An Azure non-interactive sign-in row after
`load_noninteractive_signin_logs` (timestamp and user columns resolved and
renamed; whether a device/IP grouping column exists is a table-level fact,
passed separately as `hasDeviceCol`). -/
structure NIRow where
  user : String
  date : ℚ
  device : String
  ipAddress : String
deriving DecidableEq

/-- An Azure interactive sign-in row (only the columns
`detect_failed_logins` reads). -/
structure IRow where
  user : String
  date : ℚ
  status : String
  ipAddress : String
deriving DecidableEq

/-- One Azure session row of the user-VM mapping.  `eventCount` is present
only for device-grouped sessions (the per-event fallback emits no
`Event Count` column); the `Application` and `Request IDs` display columns
are omitted. -/
structure AzSession where
  user : String
  vmId : String
  vmName : String
  sessionStart : ℚ
  sessionEnd : ℚ
  ipAddress : String
  eventCount : Option ℕ
deriving DecidableEq

/-- One entry of the concurrent-access list built by
`analyze_vm_allocation_pattern`. -/
structure ConcEntry where
  vm : String
  user1 : String
  user2 : String
  overlapStart : ℚ
  overlapEnd : ℚ
deriving DecidableEq

/-! ## Deduplicator (`common/deduplication.py`) -/

namespace Deduplicator

/-- Value of column `c` in row `r` (`None` when the column is absent). -/
def colValue (r : Row) (c : String) : Option String :=
  (r.find? (fun p => p.1 == c)).map (fun p => p.2)

/-- The `drop_duplicates` grouping key: the whole row when no `subset` is
given, else the tuple of the subset columns' values. -/
def rowKey (subset : Option (List String)) (r : Row) :
    Row ⊕ List (Option String) :=
  match subset with
  | none => Sum.inl r
  | some cols => Sum.inr (cols.map (colValue r))

/-- `Deduplicator.remove_duplicates(df, subset, keep='first')`: keep the
first row of each key group, in input order.  Only the default
`keep='first'` (the sole mode the correlators use) is modelled; the
removed-count logging has no effect on the returned table. -/
def remove_duplicates (subset : Option (List String)) (rows : List Row) :
    List Row :=
  dropDupBy (rowKey subset) rows

/-- The `how` argument of `pd.merge`. -/
inductive MergeHow
  | inner
  | outer
  | leftJoin
  | rightJoin
deriving DecidableEq

/-- Do two rows agree on every merge-key column? -/
def rowMatchesOn (keys : List String) (r1 r2 : Row) : Bool :=
  keys.all (fun c => colValue r1 c == colValue r2 c)

/-- Combine two matched rows: left row followed by the right row's
non-key columns (pandas' `_x`/`_y` suffixing of clashing non-key column
names is not modelled; no claim depends on it). -/
def combineRows (keys : List String) (r1 r2 : Row) : Row :=
  r1 ++ r2.filter (fun p => ¬ (keys.contains p.1))

/-- `pd.merge(l, r, on=on, how=how)`, modelled relationally. -/
def pdMergeOn (keys : List String) (how : MergeHow) (l r : List Row) :
    List Row :=
  match how with
  | .inner =>
    l.flatMap (fun r1 => (r.filter (rowMatchesOn keys r1)).map (combineRows keys r1))
  | .leftJoin =>
    l.flatMap (fun r1 =>
      let ms := r.filter (rowMatchesOn keys r1)
      if ms.isEmpty then [r1] else ms.map (combineRows keys r1))
  | .rightJoin =>
    r.flatMap (fun r2 =>
      let ms := l.filter (fun r1 => rowMatchesOn keys r1 r2)
      if ms.isEmpty then [r2] else ms.map (fun r1 => combineRows keys r1 r2))
  | .outer =>
    (l.flatMap (fun r1 =>
      let ms := r.filter (rowMatchesOn keys r1)
      if ms.isEmpty then [r1] else ms.map (combineRows keys r1))) ++
      r.filter (fun r2 => ¬ l.any (fun r1 => rowMatchesOn keys r1 r2))

/-- One step of the merge loop: relational join when `merge_on` is given,
otherwise row-wise concatenation. -/
def mergeStep (mergeOn : Option (List String)) (how : MergeHow)
    (acc df : List Row) : List Row :=
  match mergeOn with
  | some keys => pdMergeOn keys how acc df
  | none => acc ++ df

/-- `Deduplicator.merge_and_deduplicate(dfs, merge_on, how)`.  Note the
source returns a single input table as-is (`if len(dfs) == 1: return
dfs[0]`) without the final `remove_duplicates` pass. -/
def merge_and_deduplicate (dfs : List (List Row))
    (mergeOn : Option (List String)) (how : MergeHow) : List Row :=
  match dfs with
  | [] => []
  | [d] => d
  | d :: rest => remove_duplicates none (rest.foldl (mergeStep mergeOn how) d)

end Deduplicator

/-! ## AWSCorrelator (`aws_correlator.py`) -/

namespace AWSCorrelator

/-- `user_queries['instance_id'].dropna().unique()` for one user label. -/
def userInstanceIds (qrows : List QueryRow) (u : String) : List String :=
  firstDedup ((qrows.filter (fun r => r.user_label == u)).filterMap
    (fun r => r.instance_id))

/-- The substring-containment linkage test
`instance_id in ws_id or ws_id in instance_id`. -/
def substrEither (iid wsId : String) : Bool :=
  strContainsPlain wsId iid || strContainsPlain iid wsId

/-- The `(workspace_id, user_label)` assignments produced by the
instance-id linkage pass (method 1): for each sorted user label and each
of its distinct instance ids, the first workspace id (in sorted order)
passing `substrEither`.  When no row carries an instance id the
`instance_id` column is absent and the pass is skipped, which yields the
same empty assignment list. -/
def method1Pairs (qrows : List QueryRow) (userLabels wsIds : List String) :
    List (String × String) :=
  userLabels.flatMap (fun u =>
    (userInstanceIds qrows u).filterMap (fun iid =>
      (wsIds.find? (fun w => substrEither iid w)).map (fun w => (w, u))))

/-- Python `dict` assignment `m[k] = v`: overwrite in place when the key
exists (keeping key order), else append. -/
def dictInsert (m : List (String × String)) (kv : String × String) :
    List (String × String) :=
  if m.any (fun p => p.1 == kv.1) then
    m.map (fun p => if p.1 == kv.1 then (p.1, kv.2) else p)
  else m ++ [kv]

/-- The `workspace_user_map` built inside `generate_user_vm_mapping`:
instance-id linkage first; if that produced no assignment at all, the
positional fallback pairing the i-th sorted distinct user label with the
i-th sorted distinct workspace id.  Empty when query logs were never
loaded. -/
def buildWorkspaceUserMap (q : Option (List QueryRow)) (eb : List EBRow) :
    List (String × String) :=
  match q with
  | none => []
  | some qrows =>
    let userLabels := sortedUnique (qrows.map (fun r => r.user_label))
    let wsIds := sortedUnique (eb.map (fun r => r.workspaceId))
    let m1 := (method1Pairs qrows userLabels wsIds).foldl dictInsert []
    if m1.isEmpty then (wsIds.zip userLabels).foldl dictInsert []
    else m1

/-- Dictionary lookup `m.get(k)`. -/
def lookupMap (m : List (String × String)) (k : String) : Option String :=
  (m.find? (fun p => p.1 == k)).map (fun p => p.2)

/-- `AWSCorrelator.generate_user_vm_mapping`: one Session per login event,
grouped by workspace id (pandas `groupby` iterates sorted keys), with the
fixed one-hour session-end estimate.  Raises when Event Bridge logs were
never loaded. -/
def generate_user_vm_mapping (wsUserMapping : List (String × WsInfo))
    (eb : Option (List EBRow)) (q : Option (List QueryRow)) :
    Except String (List AwsSession) :=
  match eb with
  | none => Except.error "Event Bridge logs not loaded"
  | some ebRows =>
    let wuMap := buildWorkspaceUserMap q ebRows
    Except.ok ((sortedUnique (ebRows.map (fun r => r.workspaceId))).flatMap
      (fun wsId =>
        let group := sortOn (fun r : EBRow => r.time)
          (ebRows.filter (fun r => r.workspaceId == wsId))
        let userLabel := (lookupMap wuMap wsId).getD "Unknown"
        let info := (wsUserMapping.find? (fun p => p.1 == wsId)).map
          (fun p => p.2)
        let username := match info with
          | some i => if i.username ≠ "" then i.username else userLabel
          | none => userLabel
        let displayName := match info with
          | some i => if i.displayName ≠ "" then i.displayName else userLabel
          | none => userLabel
        group.map (fun ev =>
          ⟨userLabel, username, displayName, wsId, ev.clientIpAddress,
            ev.loginTime.getD ev.time, ev.time, ev.time + 3600⟩)))

/-- The cloud-storage domain watch list of `detect_data_exfiltration`. -/
def cloudStorageDomains : List String :=
  ["drive.google.com", "dropbox.com", "onedrive.live.com", "box.com",
    "drive.com"]

/-- The Activity row appended per matching query by
`detect_data_exfiltration` (kind "Domain Access Timeline"). -/
def mkExfilActivity (u : String) (qr : QueryRow) (total : ℤ) : Activity :=
  ⟨"Domain Access Timeline", u, some qr.query_name, some 1,
    some qr.query_timestamp, some qr.query_timestamp, some total, some 443,
    none, [], none, none, none, none, none, [], []⟩

/-- The body of `detect_data_exfiltration`'s innermost loop, for one
query row: if VPC logs are loaded and the user's port-443 flows are
nonempty with byte sum above 100 000, emit one Activity for this row. -/
def exfilRow (v : Option (List FlowRow)) (u : String) (qr : QueryRow) :
    List Activity :=
  match v with
  | none => []
  | some vrows =>
    let userVpc := vrows.filter (fun f => f.user_label == u)
    let httpsTraffic := userVpc.filter (fun f => f.dstport == 443)
    if 0 < httpsTraffic.length then
      let totalBytes := (httpsTraffic.map (fun f => f.bytes)).sum
      if 100000 < totalBytes then [mkExfilActivity u qr totalBytes]
      else []
    else []

/-- The inner loop of `detect_data_exfiltration` for one user and one
matched query list: one `exfilRow` pass per matching query row. -/
def exfilPair (v : Option (List FlowRow)) (u : String)
    (domainQueries : List QueryRow) : List Activity :=
  domainQueries.flatMap (exfilRow v u)

/-- `AWSCorrelator.detect_data_exfiltration`: per (user, cloud-storage
domain) pair, the queries whose name matches the domain
(case-insensitive regex containment), one Activity per matching row when
the byte threshold is exceeded.  Returns the empty table when query logs
were never loaded. -/
def detect_data_exfiltration (q : Option (List QueryRow))
    (v : Option (List FlowRow)) : List Activity :=
  match q with
  | none => []
  | some qrows =>
    (sortedUnique (qrows.map (fun r => r.user_label))).flatMap (fun u =>
      let group := qrows.filter (fun r => r.user_label == u)
      cloudStorageDomains.flatMap (fun d =>
        exfilPair v u (group.filter (fun r => strContainsPat r.query_name d))))

/-- The Activity row of `detect_rdp_bruteforce` for one user's port-3389
flow group. -/
def mkRdpActivity (u : String) (g : List FlowRow) : Activity :=
  ⟨"Port Access Pattern", u, none, none,
    some (minQ (g.map (fun f => f.timestamp))),
    some (maxQ (g.map (fun f => f.timestamp))), none, none, some g.length,
    (firstDedup (g.map (fun f => f.srcaddr))).take 5, none, none, none,
    none, none, [], []⟩

/-- `AWSCorrelator.detect_rdp_bruteforce`: one Activity per user with at
least one flow to destination port 3389.  Returns the empty table when
VPC logs were never loaded. -/
def detect_rdp_bruteforce (v : Option (List FlowRow)) : List Activity :=
  match v with
  | none => []
  | some vrows =>
    let rdpLogs := vrows.filter (fun f => f.dstport == 3389)
    (sortedUnique (rdpLogs.map (fun f => f.user_label))).flatMap (fun u =>
      let group := rdpLogs.filter (fun f => f.user_label == u)
      if 1 ≤ group.length then [mkRdpActivity u group] else [])

/-- The allow-list of `detect_c2_beaconing` (checked by case-sensitive
Python substring containment). -/
def excludeDomains : List String :=
  ["microsoft.com", "windows.com", "amazon.com", "amazonaws.com"]

/-- `'c2-server' in query_name.lower() or 'c2server' in
query_name.lower()`. -/
def isSuspiciousDomain (qn : String) : Bool :=
  strContainsCI qn "c2-server" || strContainsCI qn "c2server"

/-- The Activity emitted immediately for a suspicious-pattern domain (its
`Avg`/`Std Interval` columns hold the placeholder `'N/A'`, modelled as
`none`). -/
def mkSuspiciousActivity (u qn : String) (grp : List QueryRow) (ts : List ℚ) :
    Activity :=
  ⟨"Periodic Domain Query", u, some qn, some grp.length, some (minQ ts),
    some (maxQ ts), none, none, none, [], none, none, none, none, none,
    [], []⟩

/-- The Activity emitted for a periodic (beaconing) domain. -/
def mkPeriodicActivity (u qn : String) (grp : List QueryRow)
    (ts ivs : List ℚ) : Activity :=
  ⟨"Periodic Domain Query", u, some qn, some grp.length, some (minQ ts),
    some (maxQ ts), none, none, none, [], some (meanQ ivs),
    some (sampleVariance ivs), none, none, none, [], []⟩

/-- The body of `detect_c2_beaconing` for one `(user, query_name)` group:
skip allow-listed domains; flag suspicious-pattern domains immediately;
otherwise require the minimum occurrence count and classify as periodic
when the mean inter-query interval is `≤ thr` and its sample standard
deviation is `< 10` (false whenever fewer than two intervals exist, since
`Series.std()` is then `NaN`). -/
def beaconGroup (thr : ℚ) (minOcc : ℕ) (u qn : String)
    (grp : List QueryRow) : List Activity :=
  if excludeDomains.any (fun exc => strContainsPlain qn exc) then []
  else if isSuspiciousDomain qn then
    [mkSuspiciousActivity u qn grp
      (List.insertionSort (· ≤ ·) (grp.map (fun r => r.query_timestamp)))]
  else if grp.length < minOcc then []
  else
    let ts := List.insertionSort (· ≤ ·) (grp.map (fun r => r.query_timestamp))
    let ivs := diffs ts
    if 0 < ivs.length then
      if meanQ ivs ≤ thr && stdLt ivs 10 then
        [mkPeriodicActivity u qn grp ts ivs]
      else []
    else []

/-- `AWSCorrelator.detect_c2_beaconing(interval_threshold, min_occurrences)`
(defaults 100 and 1): nested `groupby` over user label and query name,
each group handled by `beaconGroup`.  Returns the empty table when query
logs were never loaded. -/
def detect_c2_beaconing (thr : ℚ) (minOcc : ℕ)
    (q : Option (List QueryRow)) : List Activity :=
  match q with
  | none => []
  | some qrows =>
    (sortedUnique (qrows.map (fun r => r.user_label))).flatMap (fun u =>
      let ugroup := qrows.filter (fun r => r.user_label == u)
      (sortedUnique (ugroup.map (fun r => r.query_name))).flatMap (fun qn =>
        beaconGroup thr minOcc u qn
          (ugroup.filter (fun r => r.query_name == qn))))

/-- `AWSCorrelator.detect_all_activities`: the three detectors' outputs
concatenated (beaconing with its default thresholds first, then
exfiltration, then port access), with no further deduplication. -/
def detect_all_activities (q : Option (List QueryRow))
    (v : Option (List FlowRow)) : List Activity :=
  detect_c2_beaconing 100 1 q ++ detect_data_exfiltration q v ++
    detect_rdp_bruteforce v

end AWSCorrelator

/-! ## AzureCorrelator (`azure_correlator.py`) -/

namespace AzureCorrelator

/-- `AzureCorrelator._generate_vm_name`: short display name derived from a
device id (the per-run memoization cache only avoids recomputation and
never changes the result, so the function is modelled purely). -/
def generateVmName (deviceId : String) : String :=
  if deviceId = "" || deviceId = "Unknown" then "Unknown"
  else
    let parts := deviceId.splitOn "-"
    if 1 < parts.length then "VM-" ++ parts.getLastD ""
    else "VM-" ++ String.mk (deviceId.toList.take 12)

/-- `AzureCorrelator.generate_user_vm_mapping`: per user (first-appearance
order) and per device group (sorted keys) one Session spanning
`[min(Date), max(Date) + 30min]`; without a device/IP column, one Session
per event with a fixed 30-minute window.  The result is sorted by session
start; raises when non-interactive logs were never loaded. -/
def generate_user_vm_mapping (hasDeviceCol : Bool)
    (ni : Option (List NIRow)) : Except String (List AzSession) :=
  match ni with
  | none => Except.error "Non-Interactive Sign-in logs not loaded."
  | some rows =>
    let sessions := (firstDedup (rows.map (fun r => r.user))).flatMap
      (fun u =>
        let userEvents := rows.filter (fun r => r.user == u)
        if hasDeviceCol then
          (sortedUnique (userEvents.map (fun r => r.device))).flatMap
            (fun dev =>
              let g := sortOn (fun r : NIRow => r.date)
                (userEvents.filter (fun r => r.device == dev))
              [⟨u, dev, generateVmName dev, minQ (g.map (fun r => r.date)),
                maxQ (g.map (fun r => r.date)) + 1800,
                (g.head?.map (fun r => r.ipAddress)).getD "N/A",
                some g.length⟩])
        else
          userEvents.map (fun ev =>
            ⟨u, "Unknown", generateVmName "Unknown", ev.date,
              ev.date + 1800, ev.ipAddress, none⟩))
    Except.ok (sortOn (fun s : AzSession => s.sessionStart) sessions)

/-- The concurrent-access pass of `analyze_vm_allocation_pattern`: per
distinct VM (first-appearance order) and per session row of that VM, the
overlapping other-index different-user sessions of the same VM are
computed, and if any exist one entry is appended pairing the row with the
FIRST such overlap. -/
def concurrentSessions (m : List AzSession) : List ConcEntry :=
  (firstDedup (m.map (fun s => s.vmId))).flatMap (fun vm =>
    let vmSessions := m.enum.filter (fun p => p.2.vmId == vm)
    vmSessions.filterMap (fun p =>
      let ovl := vmSessions.filter (fun t =>
        decide (t.2.sessionStart ≤ p.2.sessionEnd) &&
        decide (t.2.sessionEnd ≥ p.2.sessionStart) &&
        (t.1 != p.1) && (t.2.user != p.2.user))
      match ovl with
      | [] => none
      | o :: _ => some ⟨vm, p.2.user, o.2.user,
          max p.2.sessionStart o.2.sessionStart,
          min p.2.sessionEnd o.2.sessionEnd⟩))

/-- The result record of `analyze_vm_allocation_pattern`. -/
structure AllocAnalysis where
  vmPerUser : List (String × ℕ)
  usersPerVm : List (String × ℕ)
  allocationStrategy : String
  concurrent : List ConcEntry
  concurrentAccessCount : ℕ
deriving DecidableEq

/-- `AzureCorrelator.analyze_vm_allocation_pattern`: VM-per-user and
user-per-VM distributions, the breadth/depth classification (`mean > 1.5`;
for an empty mapping pandas' `NaN > 1.5` and this model's `0 > 1.5` are
both false) and the concurrent-access list.  Raises when the session
mapping was never built. -/
def analyze_vm_allocation_pattern (m : Option (List AzSession)) :
    Except String AllocAnalysis :=
  match m with
  | none => Except.error "User-VM mapping not generated."
  | some mp =>
    let vmPerUser := (sortedUnique (mp.map (fun s => s.user))).map (fun u =>
      (u, (firstDedup ((mp.filter (fun s => s.user == u)).map
        (fun s => s.vmId))).length))
    let usersPerVm := (sortedUnique (mp.map (fun s => s.vmId))).map (fun v =>
      (v, (firstDedup ((mp.filter (fun s => s.vmId == v)).map
        (fun s => s.user))).length))
    let avgVmsPerUser := meanQ (vmPerUser.map (fun p => (p.2 : ℚ)))
    let strategy :=
      if (1.5 : ℚ) < avgVmsPerUser then
        "Breadth-First (users spread across multiple VMs)"
      else "Depth-First (users concentrated on fewer VMs)"
    let conc := concurrentSessions mp
    Except.ok ⟨vmPerUser, usersPerVm, strategy, conc, conc.length⟩

/-- The failure test of `detect_failed_logins`:
`Status.str.contains('Failure|failure|Failed|failed', case=False)`, i.e.
a case-insensitive containment of "failure" or "failed". -/
def statusIsFailure (s : String) : Bool :=
  strContainsCI s "failure" || strContainsCI s "failed"

/-- The Activity row of `detect_failed_logins` for one user's failure
group. -/
def mkFailedLoginActivity (u : String) (g : List IRow) : Activity :=
  ⟨"Failed Login Attempt", u, none, none,
    some (minQ (g.map (fun r => r.date))),
    some (maxQ (g.map (fun r => r.date))), none, none, some g.length, [],
    none, none, none, none, none, [],
    (firstDedup (g.map (fun r => r.ipAddress))).take 5⟩

/-- `AzureCorrelator.detect_failed_logins`: one Activity per user with at
least one failed interactive sign-in.  Returns the empty table when
interactive logs were never loaded. -/
def detect_failed_logins (idf : Option (List IRow)) : List Activity :=
  match idf with
  | none => []
  | some rows =>
    let failed := rows.filter (fun r => statusIsFailure r.status)
    if 0 < failed.length then
      (sortedUnique (failed.map (fun r => r.user))).flatMap (fun u =>
        let g := failed.filter (fun r => r.user == u)
        if 1 ≤ g.length then [mkFailedLoginActivity u g] else [])
    else []

/-- `AzureCorrelator.detect_rapid_vm_switching`: per user, sessions sorted
by start; the gaps of adjacent different-VM pairs; one Activity when the
minimum gap is below 3600 seconds.  Returns the empty table when the
session mapping was never built. -/
def detect_rapid_vm_switching (m : Option (List AzSession)) :
    List Activity :=
  match m with
  | none => []
  | some mp =>
    (firstDedup (mp.map (fun s => s.user))).flatMap (fun u =>
      let userSessions := sortOn (fun s : AzSession => s.sessionStart)
        (mp.filter (fun s => s.user == u))
      let uniqueVms := firstDedup (userSessions.map (fun s => s.vmId))
      if 1 < uniqueVms.length then
        let switches := (userSessions.zip userSessions.tail).filterMap
          (fun p =>
            if p.1.vmId ≠ p.2.vmId then
              some (p.2.sessionStart - p.1.sessionEnd)
            else none)
        if 0 < switches.length ∧ minQ switches < 3600 then
          [⟨"Rapid VM Switching", u, none, none,
            some (minQ (userSessions.map (fun s => s.sessionStart))),
            some (maxQ (userSessions.map (fun s => s.sessionEnd))), none,
            none, none, [], none, none, some uniqueVms.length,
            some switches.length, none, uniqueVms.take 5, []⟩]
        else []
      else [])

/-- `AzureCorrelator.detect_multiple_ip_access`: one Activity per user
whose sessions carry more than one distinct IP address.  Returns the
empty table when the session mapping was never built. -/
def detect_multiple_ip_access (m : Option (List AzSession)) :
    List Activity :=
  match m with
  | none => []
  | some mp =>
    (firstDedup (mp.map (fun s => s.user))).flatMap (fun u =>
      let userSessions := mp.filter (fun s => s.user == u)
      let uniqueIps := firstDedup (userSessions.map (fun s => s.ipAddress))
      if 1 < uniqueIps.length then
        [⟨"Multiple IP Access", u, none, none,
          some (minQ (userSessions.map (fun s => s.sessionStart))),
          some (maxQ (userSessions.map (fun s => s.sessionEnd))), none,
          none, none, [], none, none, none, none, some uniqueIps.length,
          [], uniqueIps.take 5⟩]
      else [])

end AzureCorrelator

/-! ## Concrete inputs used by the claim theorems -/

/-- A one-column row used to exhibit duplicate behaviour of
`merge_and_deduplicate`. -/
def dupRow : Row := [("col", "v")]

/-- A table consisting of the same row twice. -/
def dupTable : List Row := [dupRow, dupRow]

/-- A single port-443 flow row (unloaded-stage counterexamples). -/
def c7Flows : List FlowRow := [⟨"USER_A", "10.0.0.1", 443, 500000, 0⟩]

/-- The end-to-end AWS scenario's query-log table: one row for `USER_A`
querying `drive.google.com` at `2025-01-01T00:00:00Z` (epoch
`1735689600`). -/
def awsScenarioQueries : List QueryRow :=
  [⟨"USER_A", "drive.google.com", 1735689600, none⟩]

/-- The end-to-end AWS scenario's flow table: one port-443 flow with
`bytes = 500000` at the same instant. -/
def awsScenarioFlows : List FlowRow :=
  [⟨"USER_A", "192.168.1.10", 443, 500000, 1735689600⟩]

/-- Four queries whose inter-query intervals are `109.99`, `90.01` and
`100` seconds: mean exactly `100`, sample standard deviation exactly
`9.99`. -/
def beaconRowsFlagged : List QueryRow :=
  [⟨"USER_A", "beacon.example.net", 0, none⟩,
    ⟨"USER_A", "beacon.example.net", 109.99, none⟩,
    ⟨"USER_A", "beacon.example.net", 200, none⟩,
    ⟨"USER_A", "beacon.example.net", 300, none⟩]

/-- Four queries with intervals `110`, `90.02` and `100.01` seconds: mean
`100.01`, sample standard deviation `9.99`. -/
def beaconRowsMeanHigh : List QueryRow :=
  [⟨"USER_A", "beacon.example.net", 0, none⟩,
    ⟨"USER_A", "beacon.example.net", 110, none⟩,
    ⟨"USER_A", "beacon.example.net", 200.02, none⟩,
    ⟨"USER_A", "beacon.example.net", 300.03, none⟩]

/-- Four queries with intervals `110`, `90` and `100` seconds: mean
exactly `100`, sample standard deviation exactly `10`. -/
def beaconRowsStdTen : List QueryRow :=
  [⟨"USER_A", "beacon.example.net", 0, none⟩,
    ⟨"USER_A", "beacon.example.net", 110, none⟩,
    ⟨"USER_A", "beacon.example.net", 200, none⟩,
    ⟨"USER_A", "beacon.example.net", 300, none⟩]

/-- A two-query group for the fewer-than-three-queries witness. -/
def beaconRowsTwo : List QueryRow :=
  [⟨"USER_A", "dom.example", 0, none⟩, ⟨"USER_A", "dom.example", 50, none⟩]

/-- Query-log rows with two distinct user labels and no instance ids. -/
def c6Queries : List QueryRow :=
  [⟨"userB", "example.com", 5, none⟩, ⟨"userA", "example.com", 3, none⟩]

/-- `c6Queries` in the opposite row order. -/
def c6QueriesRev : List QueryRow :=
  [⟨"userA", "example.com", 3, none⟩, ⟨"userB", "example.com", 5, none⟩]

/-- Event Bridge rows with two distinct workspace ids. -/
def c6Events : List EBRow :=
  [⟨"ws-b", 1, "10.0.0.2", "workspaceAccess", none, "windows"⟩,
    ⟨"ws-a", 2, "10.0.0.3", "workspaceAccess", none, "windows"⟩]

/-- `c6Events` in the opposite row order. -/
def c6EventsRev : List EBRow :=
  [⟨"ws-a", 2, "10.0.0.3", "workspaceAccess", none, "windows"⟩,
    ⟨"ws-b", 1, "10.0.0.2", "workspaceAccess", none, "windows"⟩]

/-- A one-event Event Bridge table for the session-end witness. -/
def c4Eb : List EBRow :=
  [⟨"ws-1", 100, "1.2.3.4", "workspaceAccess", none, "windows"⟩]

/-- The session `generate_user_vm_mapping [] (some c4Eb) none` emits. -/
def c4AwsSession : AwsSession :=
  ⟨"Unknown", "Unknown", "Unknown", "ws-1", "1.2.3.4", 100, 100,
    (100 : ℚ) + 3600⟩

/-- Three sign-in events of one user on one device. -/
def c4Ni : List NIRow :=
  [⟨"user@corp.com", 540, "dev-1", "9.9.9.9"⟩,
    ⟨"user@corp.com", 550, "dev-1", "9.9.9.9"⟩,
    ⟨"user@corp.com", 560, "dev-1", "9.9.9.9"⟩]

/-- The session the Azure builder emits for `c4Ni` with a device
column. -/
def c4AzSession : AzSession :=
  ⟨"user@corp.com", "dev-1", AzureCorrelator.generateVmName "dev-1", 540,
    (560 : ℚ) + 1800, "9.9.9.9", some 3⟩

/-- A one-event sign-in table for the no-device-column fallback. -/
def c4Ni1 : List NIRow := [⟨"user@corp.com", 100, "dev-1", "9.9.9.9"⟩]

/-- The session the Azure builder emits for `c4Ni1` without a device
column. -/
def c4AzSessionFb : AzSession :=
  ⟨"user@corp.com", "Unknown", "Unknown", 100, (100 : ℚ) + 1800,
    "9.9.9.9", none⟩

/-- Two overlapping same-VM sessions of distinct users. -/
def c1S1 : AzSession := ⟨"alice", "vm-1", "VM-1", 0, 10, "ip1", none⟩

/-- See `c1S1`: overlapping window `[5, 15]` on the same VM. -/
def c1S2 : AzSession := ⟨"bob", "vm-1", "VM-1", 5, 15, "ip2", none⟩

/-! ## General lemmas about the shared utilities -/

theorem mem_of_mem_dropDupByAux {α κ : Type} [DecidableEq κ] (k : α → κ)
    (seen : List κ) (l : List α) {x : α} (hx : x ∈ dropDupByAux k seen l) :
    x ∈ l := by
  induction l generalizing seen with
  | nil => simp [dropDupByAux] at hx
  | cons r rs ih =>
    by_cases h : k r ∈ seen
    · simp only [dropDupByAux, if_pos h] at hx
      exact List.mem_cons_of_mem _ (ih _ hx)
    · simp only [dropDupByAux, if_neg h, List.mem_cons] at hx
      rcases hx with hx | hx
      · exact hx ▸ List.mem_cons_self _ _
      · exact List.mem_cons_of_mem _ (ih _ hx)

theorem mem_map_dropDupByAux {α κ : Type} [DecidableEq κ] (k : α → κ)
    (seen : List κ) (l : List α) (c : κ) :
    c ∈ (dropDupByAux k seen l).map k ↔ c ∈ l.map k ∧ c ∉ seen := by
  induction l generalizing seen with
  | nil => simp [dropDupByAux]
  | cons r rs ih =>
    by_cases h : k r ∈ seen
    · rw [dropDupByAux, if_pos h, ih, List.map_cons, List.mem_cons]
      constructor
      · rintro ⟨hm, hs⟩
        exact ⟨Or.inr hm, hs⟩
      · rintro ⟨hm | hm, hs⟩
        · exact absurd (hm ▸ h) hs
        · exact ⟨hm, hs⟩
    · rw [dropDupByAux, if_neg h]
      simp only [List.map_cons]
      constructor
      · intro hmem
        rcases List.mem_cons.mp hmem with hceq | hmem'
        · exact ⟨List.mem_cons.mpr (Or.inl hceq), fun hc => h (hceq ▸ hc)⟩
        · obtain ⟨hm, hs⟩ := (ih _).mp hmem'
          exact ⟨List.mem_cons.mpr (Or.inr hm),
            fun hc => hs (List.mem_cons_of_mem _ hc)⟩
      · rintro ⟨hmem, hs⟩
        rcases List.mem_cons.mp hmem with hceq | hm
        · exact List.mem_cons.mpr (Or.inl hceq)
        · by_cases hck : c = k r
          · exact List.mem_cons.mpr (Or.inl hck)
          · refine List.mem_cons.mpr (Or.inr ((ih _).mpr ⟨hm, ?_⟩))
            intro hc
            rcases List.mem_cons.mp hc with h1 | h1
            · exact hck h1
            · exact hs h1

theorem nodup_map_dropDupByAux {α κ : Type} [DecidableEq κ] (k : α → κ)
    (seen : List κ) (l : List α) :
    ((dropDupByAux k seen l).map k).Nodup := by
  induction l generalizing seen with
  | nil => simp [dropDupByAux]
  | cons r rs ih =>
    by_cases h : k r ∈ seen
    · simpa [dropDupByAux, if_pos h] using ih seen
    · simp only [dropDupByAux, if_neg h, List.map_cons, List.nodup_cons]
      refine ⟨fun hmem => ?_, ih _⟩
      have := (mem_map_dropDupByAux k _ rs (k r)).mp hmem
      exact this.2 (List.mem_cons_self _ _)

theorem dropDupByAux_eq_self {α κ : Type} [DecidableEq κ] (k : α → κ)
    (seen : List κ) (l : List α) (hnd : (l.map k).Nodup)
    (hdisj : ∀ c ∈ l.map k, c ∉ seen) :
    dropDupByAux k seen l = l := by
  induction l generalizing seen with
  | nil => simp [dropDupByAux]
  | cons r rs ih =>
    have hk : k r ∉ seen := hdisj (k r) (by simp)
    simp only [dropDupByAux, if_neg hk]
    congr 1
    apply ih
    · exact (List.nodup_cons.mp (by simpa using hnd)).2
    · intro c hc
      simp only [List.mem_cons, not_or]
      refine ⟨fun hceq => ?_, hdisj c (by simp [hc])⟩
      exact (List.nodup_cons.mp (by simpa using hnd)).1 (hceq ▸ hc)

/-- First-occurrence keyed deduplication is idempotent. -/
theorem dropDupBy_idem {α κ : Type} [DecidableEq κ] (k : α → κ)
    (l : List α) : dropDupBy k (dropDupBy k l) = dropDupBy k l := by
  apply dropDupByAux_eq_self
  · exact nodup_map_dropDupByAux k [] l
  · intro c _
    simp

theorem nodup_firstDedup {α : Type} [DecidableEq α] (l : List α) :
    (firstDedup l).Nodup := by
  have h := nodup_map_dropDupByAux (id : α → α) [] l
  simpa using h

theorem mem_firstDedup {α : Type} [DecidableEq α] (l : List α) (a : α) :
    a ∈ firstDedup l ↔ a ∈ l := by
  have h := mem_map_dropDupByAux (id : α → α) [] l a
  simpa using h

theorem firstDedup_perm_of_perm {α : Type} [DecidableEq α] {l l' : List α}
    (h : l.Perm l') : (firstDedup l).Perm (firstDedup l') := by
  rw [List.perm_ext_iff_of_nodup (nodup_firstDedup l) (nodup_firstDedup l')]
  intro a
  rw [mem_firstDedup, mem_firstDedup]
  exact h.mem_iff

/-- `sorted(unique(-))` depends only on the multiset of inputs: permuting
the input rows leaves the sorted distinct-value list unchanged. -/
theorem sortedUnique_perm_inv {α : Type} [DecidableEq α] [LinearOrder α]
    {l l' : List α} (h : l.Perm l') : sortedUnique l = sortedUnique l' := by
  apply List.eq_of_perm_of_sorted (r := (· ≤ · : α → α → Prop))
  · exact ((List.perm_insertionSort _ _).trans
      (firstDedup_perm_of_perm h)).trans
      (List.perm_insertionSort _ _).symm
  · exact List.sorted_insertionSort _ _
  · exact List.sorted_insertionSort _ _

theorem mem_sortedUnique {α : Type} [DecidableEq α] [LinearOrder α]
    (l : List α) (a : α) : a ∈ sortedUnique l ↔ a ∈ l := by
  unfold sortedUnique
  rw [(List.perm_insertionSort _ _).mem_iff]
  exact mem_firstDedup l a

theorem nodup_sortedUnique {α : Type} [DecidableEq α] [LinearOrder α]
    (l : List α) : (sortedUnique l).Nodup :=
  (List.perm_insertionSort _ _).nodup_iff.mpr (nodup_firstDedup l)

theorem diffs_length : ∀ (l : List ℚ), (diffs l).length = l.length - 1
  | [] => rfl
  | [_] => rfl
  | a :: b :: rest => by
    rw [diffs]
    simp [diffs_length (b :: rest)]

/-! ## Claim theorems -/

/-- Claim C9: deduplication is idempotent — `dedupe(dedupe(T, keys), keys)
= dedupe(T, keys)` with `keep='first'`, for every table and every key
tuple, including the no-key-restriction (full-row) case `subset = none`. -/
theorem remove_duplicates_idempotent (subset : Option (List String))
    (rows : List Row) :
    Deduplicator.remove_duplicates subset
      (Deduplicator.remove_duplicates subset rows) =
      Deduplicator.remove_duplicates subset rows :=
  dropDupBy_idem _ rows

/-- Claim C8, counterexample: for an input list holding exactly one table,
`merge_and_deduplicate` returns that table as-is (`if len(dfs) == 1:
return dfs[0]`), so a table containing the same row twice is returned
with the duplicate intact — the final full-row deduplication pass is not
applied in the singleton case. -/
theorem merge_single_table_skips_dedup :
    Deduplicator.merge_and_deduplicate [dupTable] none
        Deduplicator.MergeHow.outer = dupTable ∧
      ¬ dupTable.Nodup :=
  ⟨rfl, by decide⟩

/-- Claim C8, amended: whenever the input list holds at least two tables,
the joined or concatenated result is passed through the final full-row
deduplication, so the returned table never contains two fully identical
rows; a singleton input list, however, is returned unchanged, without
that pass. -/
theorem merge_and_deduplicate_nodup :
    (∀ (dfs : List (List Row)) (mergeOn : Option (List String))
        (how : Deduplicator.MergeHow), 2 ≤ dfs.length →
        (Deduplicator.merge_and_deduplicate dfs mergeOn how).Nodup) ∧
      ∀ (t : List Row) (mergeOn : Option (List String))
        (how : Deduplicator.MergeHow),
        Deduplicator.merge_and_deduplicate [t] mergeOn how = t := by
  constructor
  · intro dfs mergeOn how h2
    match dfs with
    | [] => simp at h2
    | [d] => simp at h2
    | d :: d2 :: rest =>
      show (Deduplicator.remove_duplicates none
        ((d2 :: rest).foldl (Deduplicator.mergeStep mergeOn how) d)).Nodup
      exact List.Nodup.of_map _ (nodup_map_dropDupByAux _ [] _)
  · intro t _ _
    rfl

/-- Claim C8, witness for the amended claim at a concrete two-table
input. -/
theorem merge_and_deduplicate_nodup_witness :
    (Deduplicator.merge_and_deduplicate [[dupRow], [dupRow]] none
      Deduplicator.MergeHow.outer).Nodup :=
  merge_and_deduplicate_nodup.1 [[dupRow], [dupRow]] none
    Deduplicator.MergeHow.outer (by decide)

/-- Claim C7, counterexample: invoking the exfiltration detector before
query logs were loaded does not raise a state error — it silently returns
the empty activity table (the guard `if self.query_logs_df is None:
return pd.DataFrame(activities)`). -/
theorem detector_guard_returns_empty :
    AWSCorrelator.detect_data_exfiltration none (some c7Flows) = [] := rfl

/-- Claim C7, amended: the session-mapping builders and the
allocation-pattern analysis do raise a state error when their
prerequisite stage has not run, but every activity detector instead
silently returns an empty activity table when its required source tables
(or the session mapping) were never loaded. -/
theorem stage_guard_behavior :
    AWSCorrelator.generate_user_vm_mapping [] none none =
        Except.error "Event Bridge logs not loaded" ∧
      AzureCorrelator.generate_user_vm_mapping true none =
        Except.error "Non-Interactive Sign-in logs not loaded." ∧
      AzureCorrelator.analyze_vm_allocation_pattern none =
        Except.error "User-VM mapping not generated." ∧
      AWSCorrelator.detect_data_exfiltration none none = [] ∧
      AWSCorrelator.detect_rdp_bruteforce none = [] ∧
      AWSCorrelator.detect_c2_beaconing 100 1 none = [] ∧
      AzureCorrelator.detect_failed_logins none = [] ∧
      AzureCorrelator.detect_rapid_vm_switching none = [] ∧
      AzureCorrelator.detect_multiple_ip_access none = [] :=
  ⟨rfl, rfl, rfl, rfl, rfl, rfl, rfl, rfl, rfl⟩

/-- Claim C10: a non-allow-listed, non-suspicious-pattern `(user, domain)`
group with fewer than three queries is never flagged as periodic,
regardless of the threshold and minimum-occurrence parameters: at most
one inter-query interval exists, the pandas sample standard deviation is
then `NaN`, and the `std < 10` comparison is false. -/
theorem beacon_group_needs_three_queries (thr : ℚ) (minOcc : ℕ)
    (u qn : String) (grp : List QueryRow)
    (hsusp : AWSCorrelator.isSuspiciousDomain qn = false)
    (hlen : grp.length < 3) :
    AWSCorrelator.beaconGroup thr minOcc u qn grp = [] := by
  unfold AWSCorrelator.beaconGroup
  by_cases hex :
      (AWSCorrelator.excludeDomains.any fun exc => strContainsPlain qn exc)
        = true
  · simp [hex]
  · simp only [Bool.not_eq_true] at hex
    rw [if_neg (by simp [hex]), if_neg (by simp [hsusp])]
    by_cases hmin : grp.length < minOcc
    · rw [if_pos hmin]
    · rw [if_neg hmin]
      have hts :
          (List.insertionSort (· ≤ ·)
            (grp.map fun r => r.query_timestamp)).length = grp.length := by
        rw [(List.perm_insertionSort _ _).length_eq, List.length_map]
      have hiv :
          (diffs (List.insertionSort (· ≤ ·)
            (grp.map fun r => r.query_timestamp))).length < 2 := by
        rw [diffs_length, hts]
        omega
      have hstd :
          stdLt (diffs (List.insertionSort (· ≤ ·)
            (grp.map fun r => r.query_timestamp))) 10 = false := by
        unfold stdLt
        simp [Nat.not_le.mpr hiv]
      by_cases h0 :
          0 < (diffs (List.insertionSort (· ≤ ·)
            (grp.map fun r => r.query_timestamp))).length
      · rw [if_pos h0, if_neg (by simp [hstd])]
      · rw [if_neg h0]

/-- Claim C10, witness: a concrete two-query group is not flagged even
with the minimum-occurrence parameter set to zero. -/
theorem beacon_group_needs_three_queries_witness :
    AWSCorrelator.beaconGroup 100 0 "USER_A" "dom.example" beaconRowsTwo
      = [] :=
  beacon_group_needs_three_queries 100 0 "USER_A" "dom.example"
    beaconRowsTwo (by decide) (by decide)

/-- Claim C2: the exfiltration detector emits one "Domain Access
Timeline" Activity per matching query row of a (user, cloud-storage
domain) pair exactly when the user's network flows to destination port
443 in the loaded flow table (the code applies no further time-window
restriction) sum to more than 100 000 bytes; and on the end-to-end AWS
scenario the detector set produces exactly one such Activity, for
`USER_A` referencing `drive.google.com`. -/
theorem exfiltration_per_query_row_and_scenario :
    (∀ (vrows : List FlowRow) (u : String) (dq : List QueryRow),
      (AWSCorrelator.exfilPair (some vrows) u dq).length =
        if 100000 <
            (((vrows.filter fun f => f.user_label == u).filter
              fun f => f.dstport == 443).map fun f => f.bytes).sum
        then dq.length else 0) ∧
      ((AWSCorrelator.detect_all_activities (some awsScenarioQueries)
          (some awsScenarioFlows)).filter
          (fun a => a.activityType == "Domain Access Timeline")).map
          (fun a => (a.user, a.domain)) =
        [("USER_A", some "drive.google.com")] := by
  constructor
  · intro vrows u dq
    have hrow : ∀ qr : QueryRow,
        (AWSCorrelator.exfilRow (some vrows) u qr).length =
          if 100000 <
              (((vrows.filter fun f => f.user_label == u).filter
                fun f => f.dstport == 443).map fun f => f.bytes).sum
          then 1 else 0 := by
      intro qr
      by_cases h0 : 0 < ((vrows.filter fun f => f.user_label == u).filter
          fun f => f.dstport == 443).length
      · by_cases h1 : 100000 <
            (((vrows.filter fun f => f.user_label == u).filter
              fun f => f.dstport == 443).map fun f => f.bytes).sum
        · simp only [AWSCorrelator.exfilRow]
          rw [if_pos h0, if_pos h1, if_pos h1]
          rfl
        · simp only [AWSCorrelator.exfilRow]
          rw [if_pos h0, if_neg h1, if_neg h1]
          rfl
      · have hempty : ((vrows.filter fun f => f.user_label == u).filter
            fun f => f.dstport == 443) = [] :=
          List.length_eq_zero.mp (Nat.eq_zero_of_not_pos h0)
        simp only [AWSCorrelator.exfilRow]
        rw [if_neg h0, hempty]
        simp
    induction dq with
    | nil => simp [AWSCorrelator.exfilPair]
    | cons qr rest ih =>
      have hcons : AWSCorrelator.exfilPair (some vrows) u (qr :: rest) =
          AWSCorrelator.exfilRow (some vrows) u qr ++
            AWSCorrelator.exfilPair (some vrows) u rest := by
        simp [AWSCorrelator.exfilPair]
      rw [hcons, List.length_append, hrow qr, ih]
      by_cases hc : 100000 <
          (((vrows.filter fun f => f.user_label == u).filter
            fun f => f.dstport == 443).map fun f => f.bytes).sum
      · simp only [if_pos hc, List.length_cons]
        omega
      · simp only [if_neg hc]
  · decide

/-- Claim C5: with the default thresholds, a non-allow-listed,
non-suspicious-pattern (user, domain) group whose inter-query intervals
have mean exactly 100 seconds and sample standard deviation 9.99 seconds
is flagged as one "Periodic Domain Query" Activity; with mean 100.01
seconds, or with standard deviation exactly 10.0 seconds, it is not
(the boundary is `mean ≤ 100` and `std < 10`). -/
theorem beaconing_threshold_boundary :
    (AWSCorrelator.detect_c2_beaconing 100 1 (some beaconRowsFlagged)).map
        (fun a => a.activityType) = ["Periodic Domain Query"] ∧
      AWSCorrelator.detect_c2_beaconing 100 1 (some beaconRowsMeanHigh)
        = [] ∧
      AWSCorrelator.detect_c2_beaconing 100 1 (some beaconRowsStdTen)
        = [] := by
  have hex : (AWSCorrelator.excludeDomains.any
      fun exc => strContainsPlain "beacon.example.net" exc) = false := by
    decide
  have hsusp : AWSCorrelator.isSuspiciousDomain "beacon.example.net"
      = false := by decide
  refine ⟨?_, ?_, ?_⟩
  · have hbridge : AWSCorrelator.detect_c2_beaconing 100 1
        (some beaconRowsFlagged)
        = (AWSCorrelator.beaconGroup 100 1 "USER_A" "beacon.example.net"
            beaconRowsFlagged ++ []) ++ [] := rfl
    rw [hbridge, List.append_nil, List.append_nil]
    have hts : List.insertionSort (α := ℚ) (· ≤ ·)
        (beaconRowsFlagged.map fun r => r.query_timestamp)
        = [0, 109.99, 200, 300] := by
      norm_num [beaconRowsFlagged, List.insertionSort, List.orderedInsert]
    have hdiffs : diffs [0, 109.99, 200, 300] = [109.99, 90.01, 100] := by
      norm_num [diffs]
    have hmean : meanQ [109.99, 90.01, 100] = 100 := by norm_num [meanQ]
    have hvar : sampleVariance [109.99, 90.01, 100] = 99.8001 := by
      norm_num [sampleVariance, meanQ]
    have hstd : stdLt [109.99, 90.01, 100] 10 = true := by
      unfold stdLt
      rw [hvar]
      norm_num
    unfold AWSCorrelator.beaconGroup
    rw [if_neg (by simp [hex]), if_neg (by simp [hsusp]),
      if_neg (by decide : ¬ beaconRowsFlagged.length < 1)]
    simp only [hts, hdiffs]
    rw [if_pos (by decide : 0 < ([109.99, 90.01, 100] : List ℚ).length),
      if_pos (show (decide (meanQ [109.99, 90.01, 100] ≤ 100) &&
        stdLt [109.99, 90.01, 100] 10) = true from by
          rw [hmean, hstd]; norm_num)]
    simp [AWSCorrelator.mkPeriodicActivity]
  · have hbridge : AWSCorrelator.detect_c2_beaconing 100 1
        (some beaconRowsMeanHigh)
        = (AWSCorrelator.beaconGroup 100 1 "USER_A" "beacon.example.net"
            beaconRowsMeanHigh ++ []) ++ [] := rfl
    rw [hbridge, List.append_nil, List.append_nil]
    have hts : List.insertionSort (α := ℚ) (· ≤ ·)
        (beaconRowsMeanHigh.map fun r => r.query_timestamp)
        = [0, 110, 200.02, 300.03] := by
      norm_num [beaconRowsMeanHigh, List.insertionSort, List.orderedInsert]
    have hdiffs : diffs [0, 110, 200.02, 300.03]
        = [110, 90.02, 100.01] := by
      norm_num [diffs]
    have hmean : meanQ [110, 90.02, 100.01] = 100.01 := by norm_num [meanQ]
    have hcond : (decide (meanQ [110, 90.02, 100.01] ≤ 100) &&
        stdLt [110, 90.02, 100.01] 10) = false := by
      rw [hmean]
      norm_num
    unfold AWSCorrelator.beaconGroup
    rw [if_neg (by simp [hex]), if_neg (by simp [hsusp]),
      if_neg (by decide : ¬ beaconRowsMeanHigh.length < 1)]
    simp only [hts, hdiffs]
    rw [if_pos (by decide : 0 < ([110, 90.02, 100.01] : List ℚ).length),
      if_neg (by simp [hcond])]
  · have hbridge : AWSCorrelator.detect_c2_beaconing 100 1
        (some beaconRowsStdTen)
        = (AWSCorrelator.beaconGroup 100 1 "USER_A" "beacon.example.net"
            beaconRowsStdTen ++ []) ++ [] := rfl
    rw [hbridge, List.append_nil, List.append_nil]
    have hts : List.insertionSort (α := ℚ) (· ≤ ·)
        (beaconRowsStdTen.map fun r => r.query_timestamp)
        = [0, 110, 200, 300] := by
      norm_num [beaconRowsStdTen, List.insertionSort, List.orderedInsert]
    have hdiffs : diffs [0, 110, 200, 300] = [110, 90, 100] := by
      norm_num [diffs]
    have hvar : sampleVariance [110, 90, 100] = 100 := by
      norm_num [sampleVariance, meanQ]
    have hstd : stdLt [110, 90, 100] 10 = false := by
      unfold stdLt
      rw [hvar]
      norm_num
    have hcond : (decide (meanQ [110, 90, 100] ≤ 100) &&
        stdLt [110, 90, 100] 10) = false := by
      rw [hstd]
      simp
    unfold AWSCorrelator.beaconGroup
    rw [if_neg (by simp [hex]), if_neg (by simp [hsusp]),
      if_neg (by decide : ¬ beaconRowsStdTen.length < 1)]
    simp only [hts, hdiffs]
    rw [if_pos (by decide : 0 < ([110, 90, 100] : List ℚ).length),
      if_neg (by simp [hcond])]

/-- Claim C1, counterexample: two overlapping sessions of distinct users
on the same VM are reported as TWO concurrent entries (one per
orientation of the pair, since the pairwise scan appends an entry for
every session that has an overlap), not as exactly one pair. -/
theorem concurrent_pair_reported_twice :
    (AzureCorrelator.concurrentSessions [c1S1, c1S2]).length = 2 := by
  decide

/-- Claim C1, amended: same-user overlaps are never reported, and every
session that overlaps at least one other-index different-user session on
the same VM contributes exactly one entry pairing it with the first such
overlap — so an isolated overlapping cross-user pair is reported twice,
once in each orientation. -/
theorem concurrent_sessions_per_orientation :
    (∀ (m : List AzSession), ∀ e ∈ AzureCorrelator.concurrentSessions m,
      e.user1 ≠ e.user2) ∧
      ∀ s1 s2 : AzSession, s1.vmId = s2.vmId → s1.user ≠ s2.user →
        s2.sessionStart ≤ s1.sessionEnd → s1.sessionStart ≤ s2.sessionEnd →
        AzureCorrelator.concurrentSessions [s1, s2] =
          [⟨s1.vmId, s1.user, s2.user, max s1.sessionStart s2.sessionStart,
            min s1.sessionEnd s2.sessionEnd⟩,
            ⟨s1.vmId, s2.user, s1.user, max s2.sessionStart s1.sessionStart,
              min s2.sessionEnd s1.sessionEnd⟩] := by
  constructor
  · intro m e he
    simp only [AzureCorrelator.concurrentSessions, List.mem_flatMap] at he
    obtain ⟨vm, hvm, he2⟩ := he
    simp only [List.mem_filterMap] at he2
    obtain ⟨p, hp, hpe⟩ := he2
    cases hovl : (List.filter (fun t =>
        decide (t.2.sessionStart ≤ p.2.sessionEnd) &&
        decide (t.2.sessionEnd ≥ p.2.sessionStart) &&
        (t.1 != p.1) && (t.2.user != p.2.user))
        ((m.enum.filter (fun p => p.2.vmId == vm)))) with
    | nil => rw [hovl] at hpe; exact absurd hpe (by simp)
    | cons o rest =>
      rw [hovl] at hpe
      have hom : o ∈ List.filter (fun t =>
          decide (t.2.sessionStart ≤ p.2.sessionEnd) &&
          decide (t.2.sessionEnd ≥ p.2.sessionStart) &&
          (t.1 != p.1) && (t.2.user != p.2.user))
          ((m.enum.filter (fun p => p.2.vmId == vm))) := by
        rw [hovl]
        exact List.mem_cons_self _ _
      have hpred := List.of_mem_filter hom
      simp only [Bool.and_eq_true, bne_iff_ne] at hpred
      obtain rfl := Option.some.inj hpe
      exact fun hequ => hpred.2 (by exact hequ.symm)
  · intro s1 s2 hvm huser h1 h2
    have hb1 : (decide (s2.sessionStart ≤ s1.sessionEnd)) = true :=
      decide_eq_true h1
    have hb2 : (decide (s1.sessionStart ≤ s2.sessionEnd)) = true :=
      decide_eq_true h2
    have hb1g : (decide (s1.sessionEnd ≥ s2.sessionStart)) = true :=
      decide_eq_true h1
    have hb2g : (decide (s2.sessionEnd ≥ s1.sessionStart)) = true :=
      decide_eq_true h2
    have hu1 : (s1.user != s2.user) = true := bne_iff_ne.mpr huser
    have hu2 : (s2.user != s1.user) = true := bne_iff_ne.mpr (Ne.symm huser)
    simp [AzureCorrelator.concurrentSessions, firstDedup, dropDupBy,
      dropDupByAux, List.enum, List.enumFrom, hvm, hb1, hb2, hb1g, hb2g,
      hu1, hu2]

/-- Claim C1, witness for the amended claim at the concrete overlapping
pair. -/
theorem concurrent_sessions_per_orientation_witness :
    AzureCorrelator.concurrentSessions [c1S1, c1S2] =
      [⟨c1S1.vmId, c1S1.user, c1S2.user,
        max c1S1.sessionStart c1S2.sessionStart,
        min c1S1.sessionEnd c1S2.sessionEnd⟩,
        ⟨c1S1.vmId, c1S2.user, c1S1.user,
          max c1S2.sessionStart c1S1.sessionStart,
          min c1S2.sessionEnd c1S1.sessionEnd⟩] :=
  concurrent_sessions_per_orientation.2 c1S1 c1S2 rfl (by decide)
    (by decide) (by decide)

theorem foldl_max_init_le (as : List ℚ) (b : ℚ) : b ≤ as.foldl max b := by
  induction as generalizing b with
  | nil => exact le_rfl
  | cons c cs ih => exact le_trans (le_max_left b c) (ih (max b c))

theorem le_foldl_max : ∀ (as : List ℚ) (b x : ℚ), x ∈ as →
    x ≤ as.foldl max b
  | [], _, x, hx => by simp at hx
  | c :: cs, b, x, hx => by
    rcases List.mem_cons.mp hx with rfl | hx2
    · exact le_trans (le_max_right b x) (foldl_max_init_le cs (max b x))
    · exact le_foldl_max cs (max b c) x hx2

theorem le_maxQ (l : List ℚ) (x : ℚ) (hx : x ∈ l) : x ≤ maxQ l := by
  cases l with
  | nil => simp at hx
  | cons a as =>
    rcases List.mem_cons.mp hx with rfl | hx2
    · exact foldl_max_init_le as x
    · exact le_foldl_max as a x hx2

theorem foldl_max_mem : ∀ (as : List ℚ) (b : ℚ),
    as.foldl max b = b ∨ as.foldl max b ∈ as
  | [], _ => Or.inl rfl
  | c :: cs, b => by
    rcases foldl_max_mem cs (max b c) with h | h
    · rcases max_choice b c with hm | hm
      · left
        rw [List.foldl_cons, h, hm]
      · right
        rw [List.foldl_cons, h, hm]
        exact List.mem_cons_self _ _
    · right
      rw [List.foldl_cons]
      exact List.mem_cons_of_mem _ h

theorem maxQ_mem (l : List ℚ) (h : l ≠ []) : maxQ l ∈ l := by
  cases l with
  | nil => exact absurd rfl h
  | cons a as =>
    rcases foldl_max_mem as a with h2 | h2
    · rw [maxQ, h2]
      exact List.mem_cons_self _ _
    · rw [maxQ]
      exact List.mem_cons_of_mem _ h2

/-- `Series.max()` depends only on the multiset of values. -/
theorem maxQ_perm {l l' : List ℚ} (h : l.Perm l') : maxQ l = maxQ l' := by
  cases l with
  | nil =>
    rw [← h.nil_eq]
  | cons a as =>
    have hne : l' ≠ [] := by
      intro hl
      rw [hl] at h
      simpa using h.length_eq
    apply le_antisymm
    · exact le_maxQ l' _ (h.mem_iff.mp (maxQ_mem _ (by simp)))
    · exact le_maxQ (a :: as) _ (h.mem_iff.mpr (maxQ_mem l' hne))

theorem mem_sortOn {α β : Type} [LinearOrder β] (f : α → β) (l : List α)
    (x : α) : x ∈ sortOn f l ↔ x ∈ l :=
  (List.perm_insertionSort _ _).mem_iff

/-- Claim C4: every AWS Session ends exactly one hour after it starts;
every Azure Session of the device-grouped path ends exactly 30 minutes
after the maximum event timestamp of its (user, device) group, and every
Azure Session of the no-device-column fallback ends exactly 30 minutes
after its single event's timestamp. -/
theorem session_end_estimates :
    (∀ (wm : List (String × WsInfo)) (eb : List EBRow)
        (q : Option (List QueryRow)) (ss : List AwsSession),
      AWSCorrelator.generate_user_vm_mapping wm (some eb) q = Except.ok ss →
      ∀ s ∈ ss, s.sessionEnd = s.sessionStart + 3600) ∧
      (∀ (rows : List NIRow) (ss : List AzSession),
        AzureCorrelator.generate_user_vm_mapping true (some rows)
          = Except.ok ss →
        ∀ s ∈ ss, s.sessionEnd =
          maxQ (((rows.filter fun r => r.user == s.user).filter
            fun r => r.device == s.vmId).map fun r => r.date) + 1800) ∧
      ∀ (rows : List NIRow) (ss : List AzSession),
        AzureCorrelator.generate_user_vm_mapping false (some rows)
          = Except.ok ss →
        ∀ s ∈ ss, s.sessionEnd = s.sessionStart + 1800 := by
  refine ⟨?_, ?_, ?_⟩
  · intro wm eb q ss hok s hs
    simp only [AWSCorrelator.generate_user_vm_mapping, Except.ok.injEq]
      at hok
    rw [← hok] at hs
    simp only [List.mem_flatMap, List.mem_map] at hs
    obtain ⟨wsId, hws, ev, hev, heq⟩ := hs
    rw [← heq]
  · intro rows ss hok s hs
    simp only [AzureCorrelator.generate_user_vm_mapping, if_true,
      Except.ok.injEq] at hok
    rw [← hok] at hs
    rw [mem_sortOn] at hs
    simp only [List.mem_flatMap] at hs
    obtain ⟨u, hu, hs2⟩ := hs
    simp only [List.mem_flatMap, List.mem_singleton] at hs2
    obtain ⟨dev, hdev, rfl⟩ := hs2
    show maxQ _ + 1800 = _
    congr 1
    apply maxQ_perm
    exact (List.perm_insertionSort _ _).map _
  · intro rows ss hok s hs
    simp only [AzureCorrelator.generate_user_vm_mapping, Bool.false_eq_true,
      if_false, Except.ok.injEq] at hok
    rw [← hok] at hs
    rw [mem_sortOn] at hs
    simp only [List.mem_flatMap, List.mem_map] at hs
    obtain ⟨u, hu, ev, hev, heq⟩ := hs
    rw [← heq]

/-- Claim C4, witness: one concrete run of each of the three builder
paths, with the claimed end-instant equation checked on the emitted
session. -/
theorem session_end_estimates_witness :
    c4AwsSession.sessionEnd = c4AwsSession.sessionStart + 3600 ∧
      c4AzSession.sessionEnd =
        maxQ (((c4Ni.filter fun r => r.user == c4AzSession.user).filter
          fun r => r.device == c4AzSession.vmId).map fun r => r.date)
          + 1800 ∧
      c4AzSessionFb.sessionEnd = c4AzSessionFb.sessionStart + 1800 :=
  ⟨session_end_estimates.1 [] c4Eb none [c4AwsSession] rfl c4AwsSession
      (List.mem_singleton.mpr rfl),
    session_end_estimates.2.1 c4Ni [c4AzSession] rfl c4AzSession
      (List.mem_singleton.mpr rfl),
    session_end_estimates.2.2 c4Ni1 [c4AzSessionFb] rfl c4AzSessionFb
      (List.mem_singleton.mpr rfl)⟩

/-- Claim C6: when instance-id linkage yields no workspace-to-user match,
and two distinct user labels and two distinct workspace identifiers are
present, the positional fallback pairs the i-th sorted distinct user
label with the i-th sorted distinct workspace identifier, for every
ordering of the input rows (the map built from any permutation of the
rows is the same). -/
theorem positional_fallback_deterministic
    (q q' : List QueryRow) (e e' : List EBRow) (u1 u2 w1 w2 : String)
    (hq : q.Perm q') (he : e.Perm e')
    (hnl : (q.all fun r => match r.instance_id with
      | none => true
      | some iid => e.all
          fun b => ! AWSCorrelator.substrEither iid b.workspaceId) = true)
    (hu : sortedUnique (q.map fun r => r.user_label) = [u1, u2])
    (hw : sortedUnique (e.map fun r => r.workspaceId) = [w1, w2]) :
    AWSCorrelator.buildWorkspaceUserMap (some q') e'
      = [(w1, u1), (w2, u2)] := by
  have hu' : sortedUnique (q'.map fun r => r.user_label) = [u1, u2] := by
    rw [← sortedUnique_perm_inv (hq.map _)]
    exact hu
  have hw' : sortedUnique (e'.map fun r => r.workspaceId) = [w1, w2] := by
    rw [← sortedUnique_perm_inv (he.map _)]
    exact hw
  have hm1 : AWSCorrelator.method1Pairs q' [u1, u2] [w1, w2] = [] := by
    unfold AWSCorrelator.method1Pairs
    rw [List.flatMap_eq_nil_iff]
    intro u hu2
    rw [List.filterMap_eq_nil_iff]
    intro iid hiid
    have hfind : List.find? (fun w => AWSCorrelator.substrEither iid w)
        [w1, w2] = none := by
      rw [List.find?_eq_none]
      intro w hwmem
      have hiid2 : iid ∈ (q'.filter fun r => r.user_label == u).filterMap
          (fun r => r.instance_id) := (mem_firstDedup _ iid).mp hiid
      rw [List.mem_filterMap] at hiid2
      obtain ⟨r, hrf, hrinst⟩ := hiid2
      have hr : r ∈ q := hq.mem_iff.mpr (List.mem_of_mem_filter hrf)
      have hwmem2 : w ∈ e.map fun b => b.workspaceId := by
        have h1 : w ∈ sortedUnique (e.map fun b => b.workspaceId) := by
          rw [hw]
          exact hwmem
        exact (mem_sortedUnique _ w).mp h1
      rw [List.mem_map] at hwmem2
      obtain ⟨b, hb, hbw⟩ := hwmem2
      have hall := List.all_eq_true.mp hnl r hr
      rw [hrinst] at hall
      have hb2 := List.all_eq_true.mp hall b hb
      rw [hbw] at hb2
      simp only [Bool.not_eq_true'] at hb2
      simp [hb2]
    rw [hfind]
    rfl
  have hw12 : w1 ≠ w2 := by
    have hnd := nodup_sortedUnique (e.map fun r => r.workspaceId)
    rw [hw] at hnd
    intro hww
    simp [hww] at hnd
  simp only [AWSCorrelator.buildWorkspaceUserMap, hu', hw', hm1,
    List.foldl_nil, List.isEmpty_nil, if_true, List.zip_cons_cons,
    List.zip_nil_right]
  simp [AWSCorrelator.dictInsert, hw12]

/-- Claim C6, witness: the fallback map computed from the reversed row
order equals the sorted positional pairing determined by the original
order. -/
theorem positional_fallback_deterministic_witness :
    AWSCorrelator.buildWorkspaceUserMap (some c6QueriesRev) c6EventsRev
      = [("ws-a", "userA"), ("ws-b", "userB")] :=
  positional_fallback_deterministic c6Queries c6QueriesRev c6Events
    c6EventsRev "userA" "userB" "ws-a" "ws-b" (by decide) (by decide)
    (by decide)
    (by
      have h : ¬ (("userB" : String) ≤ "userA") := by
        rw [String.le_iff_toList_le]
        decide
      simp [c6Queries, sortedUnique, firstDedup, dropDupBy, dropDupByAux,
        List.insertionSort, List.orderedInsert, h])
    (by
      have h : ¬ (("ws-b" : String) ≤ "ws-a") := by
        rw [String.le_iff_toList_le]
        decide
      simp [c6Events, sortedUnique, firstDedup, dropDupBy, dropDupByAux,
        List.insertionSort, List.orderedInsert, h])
